import Mathlib

/-
  Verification of the quiz-backend core (server.js) against its
  natural-language specification.

  The document store is modelled as lists of records; every handler of
  server.js that the claims mention is translated into a pure Lean
  function over that state.  Mongo `_id` values are modelled as strings,
  timestamps as naturals, and the random shuffle of the unsolved-question
  endpoint as an arbitrary permutation parameter.
-/

namespace QuizBack

/-- A document of the `questions` collection (quizSchema, server.js lines
34-39): category, question text, options, 0-based answer index.  `id`
models the generated Mongo `_id`. -/
structure Question where
  id : String
  category : String
  question : String
  options : List String
  answer : Int
  deriving DecidableEq

/-- A document of the `solvedQuestions` collection (solvedQuestionSchema,
server.js lines 106-113).  `timeSpent` is optional in the schema, hence
`Option Int`. -/
structure SolvedQuestionRecord where
  userId : String
  questionId : String
  category : String
  isCorrect : Bool
  solvedAt : Nat
  timeSpent : Option Int
  deriving DecidableEq

/-- A document of the `wrongAnswers` collection (wrongAnswerSchema,
server.js lines 41-49). -/
structure WrongAnswerRecord where
  id : String
  userId : String
  category : String
  question : String
  correctAnswer : String
  userAnswer : String
  correctIndex : Int
  createdAt : Nat
  deriving DecidableEq

/-- The whole document store: the three collections plus a counter that
models the generation of fresh `_id` values by Mongo on insert. -/
structure DB where
  questions : List Question
  wrongAnswers : List WrongAnswerRecord
  solvedQuestions : List SolvedQuestionRecord
  nextId : Nat
  deriving DecidableEq

/-- `SolvedQuestion.find({ userId, category }, { questionId: 1 })` followed
by `.map(sq => sq.questionId)` (server.js lines 155-159). -/
def solvedIdsFor (db : DB) (userId category : String) : List String :=
  (db.solvedQuestions.filter (fun s => s.userId == userId && s.category == category)).map
    (fun s => s.questionId)

/-- `Quiz.find({ category })` (server.js line 170). -/
def catQuestions (db : DB) (category : String) : List Question :=
  db.questions.filter (fun q => q.category == category)

/-- `Quiz.find({ category, _id: { $nin: solvedQuestionIds } })`
(server.js lines 162-165). -/
def unsolvedQuestions (db : DB) (userId category : String) : List Question :=
  db.questions.filter (fun q =>
    q.category == category && !((solvedIdsFor db userId category).contains q.id))

/-- The top-up step of the unsolved-question endpoint (server.js lines
167-173): if the unsolved pool is smaller than `limit`, append up to
`limit - |unsolved|` questions fetched from the full category pool. -/
def finalQuestions (db : DB) (userId category : String) (limit : Nat) : List Question :=
  if (unsolvedQuestions db userId category).length < limit then
    unsolvedQuestions db userId category ++
      (catQuestions db category).take (limit - (unsolvedQuestions db userId category).length)
  else
    unsolvedQuestions db userId category

/-- GET `/api/questions/unsolved/:userId/:category` (server.js lines
149-185).  The source shuffles with `.sort(() => 0.5 - Math.random())`,
which produces some permutation of the array; the permutation is taken
as the parameter `shuffle`, constrained to be a permutation in the
theorems.  Finally the result is truncated with `.slice(0, limit)`. -/
def selectUnsolvedWith (shuffle : List Question → List Question) (db : DB)
    (userId category : String) (limit : Nat) : List Question :=
  (shuffle (finalQuestions db userId category limit)).take limit

/-- Number of questions of the category that the user has already solved
(the size of the intersection of the category pool with the solved-id
set). -/
def solvedInCategory (db : DB) (userId category : String) : Nat :=
  ((catQuestions db category).filter
    (fun q => (solvedIdsFor db userId category).contains q.id)).length

/-- A one-question store used to exhibit the top-up overlap: category
`math` holds a single question and the user has solved nothing. -/
def oneQuestionDB : DB :=
  ⟨[⟨"q1", "math", "1+1", ["1", "2", "3", "4"], 1⟩], [], [], 0⟩

/-- A two-question store where the user has solved one question of the
category; used as the C2 witness input. -/
def twoQuestionDB : DB :=
  ⟨[⟨"q1", "math", "1+1", ["1", "2", "3", "4"], 1⟩,
    ⟨"q2", "math", "2+2", ["2", "3", "4", "5"], 2⟩],
   [],
   [⟨"u1", "q1", "math", true, 0, some 3⟩],
   0⟩

/-- A JavaScript value as it can appear in a JSON request body field
(restricted to the shapes the handlers inspect): absent (`undefined`),
`null`, a string, an integer number, or a boolean. -/
inductive JVal where
  | undef
  | null
  | str (s : String)
  | num (n : Int)
  | bool (b : Bool)
  deriving DecidableEq

/-- JavaScript truthiness for the values of `JVal`: `undefined`, `null`,
the empty string, `0` and `false` are falsy. -/
def JVal.truthy : JVal → Bool
  | .undef => false
  | .null => false
  | .str s => !(s == "")
  | .num n => !(n == 0)
  | .bool b => b

/-- `correctIndex === undefined` (server.js line 218). -/
def JVal.isUndefined : JVal → Bool
  | .undef => true
  | _ => false

/-- The body of a POST `/api/wrong-answers/save` request: the six fields
the handler destructures (server.js line 216), each an arbitrary
JavaScript value. -/
structure WrongAnswerReq where
  userId : JVal
  category : JVal
  question : JVal
  correctAnswer : JVal
  userAnswer : JVal
  correctIndex : JVal
  deriving DecidableEq

/-- The required-field check of the save handler (server.js line 218):
`!userId || !category || !question || !correctAnswer || !userAnswer ||
correctIndex === undefined`. -/
def requiredFieldsMissing (r : WrongAnswerReq) : Bool :=
  !r.userId.truthy || !r.category.truthy || !r.question.truthy ||
    !r.correctAnswer.truthy || !r.userAnswer.truthy || r.correctIndex.isUndefined

/-- The cast Mongoose applies to a request value for a `String` schema
field, on the value shapes of `JVal`. -/
def castToString : JVal → Option String
  | .str s => some s
  | .num n => some (toString n)
  | .bool b => some (if b then ("true") else ("false"))
  | _ => none

/-- The cast Mongoose applies to a request value for a `Number` schema
field, on the value shapes of `JVal`. -/
def castToNumber : JVal → Option Int
  | .num n => some n
  | .bool b => some (if b then 1 else 0)
  | .str s => s.toInt?
  | _ => none

/-- Outcome of the save handler: 400 on failed validation, 200 with the
new record id, or 500 when a store operation rejects. -/
inductive SaveWrongAnswerResult where
  | validationError
  | ok (id : String)
  | serverError
  deriving DecidableEq

/-- POST `/api/wrong-answers/save` (server.js lines 214-262): validate
the six required values, delete every record matching `(userId,
question)` (`WrongAnswer.deleteMany`, line 235), then insert one fresh
record with a newly generated id.  Failed casts surface as the 500 of
the catch branch. -/
def saveWrongAnswerJ (db : DB) (now : Nat) (r : WrongAnswerReq) :
    SaveWrongAnswerResult × DB :=
  if requiredFieldsMissing r then
    (.validationError, db)
  else
    match castToString r.userId, castToString r.question with
    | some uid, some qtext =>
      let remaining := db.wrongAnswers.filter (fun w => !(w.userId == uid && w.question == qtext))
      match castToString r.category, castToString r.correctAnswer,
          castToString r.userAnswer, castToNumber r.correctIndex with
      | some cat, some corr, some ua, some ci =>
        (.ok (toString db.nextId),
         ⟨db.questions,
          remaining ++ [⟨toString db.nextId, uid, cat, qtext, corr, ua, ci, now⟩],
          db.solvedQuestions, db.nextId + 1⟩)
      | _, _, _, _ => (.serverError, ⟨db.questions, remaining, db.solvedQuestions, db.nextId⟩)
    | _, _ => (.serverError, db)

/-- The save handler applied to a well-typed body: five strings and an
integer index, as the client sends them. -/
def saveWrongAnswer (db : DB) (now : Nat)
    (userId category question correctAnswer userAnswer : String) (correctIndex : Int) :
    SaveWrongAnswerResult × DB :=
  saveWrongAnswerJ db now
    ⟨.str userId, .str category, .str question, .str correctAnswer, .str userAnswer,
     .num correctIndex⟩

/-- `SolvedQuestion.findOneAndUpdate({ userId, questionId }, { category,
isCorrect, timeSpent, solvedAt: new Date() }, { upsert: true, new: true })`
(server.js lines 127-139): replace the fields of the first record
matching the `(userId, questionId)` filter, or append a fresh record when
none matches. -/
def findOneAndUpdateSolved (userId questionId category : String) (isCorrect : Bool)
    (timeSpent : Option Int) (now : Nat) :
    List SolvedQuestionRecord → List SolvedQuestionRecord
  | [] => [⟨userId, questionId, category, isCorrect, now, timeSpent⟩]
  | s :: rest =>
    if s.userId == userId && s.questionId == questionId then
      ⟨userId, questionId, category, isCorrect, now, timeSpent⟩ :: rest
    else
      s :: findOneAndUpdateSolved userId questionId category isCorrect timeSpent now rest

/-- The state change of POST `/api/solved-questions/save` (server.js
lines 122-146). -/
def recordSolved (db : DB) (now : Nat) (userId questionId category : String)
    (isCorrect : Bool) (timeSpent : Option Int) : DB :=
  ⟨db.questions, db.wrongAnswers,
   findOneAndUpdateSolved userId questionId category isCorrect timeSpent now
     db.solvedQuestions,
   db.nextId⟩

/-- Outcome of POST `/api/solved-questions/save`: the handler has no
validation branch, so the only failure is the 500 of the catch branch
when the store rejects the operation. -/
inductive RecordSolvedResult where
  | ok (result : SolvedQuestionRecord)
  | serverError
  deriving DecidableEq

/-- POST `/api/solved-questions/save` (server.js lines 122-146), with the
reachability of the store made explicit: when the store is reachable the
upsert runs and the handler answers success with the upserted document
(`new: true`); an unreachable store surfaces as the 500 of the catch
branch. -/
def recordSolvedH (storeReachable : Bool) (db : DB) (now : Nat)
    (userId questionId category : String) (isCorrect : Bool) (timeSpent : Option Int) :
    RecordSolvedResult × DB :=
  if storeReachable then
    (.ok ⟨userId, questionId, category, isCorrect, now, timeSpent⟩,
     recordSolved db now userId questionId category isCorrect timeSpent)
  else
    (.serverError, db)

/-- Outcome of DELETE `/api/wrong-answers/:wrongAnswerId`. -/
inductive DeleteWrongAnswerResult where
  | badRequest
  | ok
  | notFound
  deriving DecidableEq

/-- DELETE `/api/wrong-answers/:wrongAnswerId` (server.js lines 299-330):
reject a falsy id with 400, otherwise `findByIdAndDelete`; a found record
is removed and answered with success, an absent one with 404. -/
def deleteWrongAnswer (db : DB) (wrongAnswerId : String) :
    DeleteWrongAnswerResult × DB :=
  if wrongAnswerId == "" then
    (.badRequest, db)
  else
    match db.wrongAnswers.find? (fun w => w.id == wrongAnswerId) with
    | some _ =>
      (.ok, ⟨db.questions, db.wrongAnswers.eraseP (fun w => w.id == wrongAnswerId),
             db.solvedQuestions, db.nextId⟩)
    | none => (.notFound, db)

/-- DELETE `/api/users/:userId` (server.js lines 333-345):
`WrongAnswer.deleteMany({ userId })` and nothing else. -/
def purgeUser (db : DB) (userId : String) : DB :=
  ⟨db.questions, db.wrongAnswers.filter (fun w => !(w.userId == userId)),
   db.solvedQuestions, db.nextId⟩

/-- The running accumulators of one `$group` bucket of the stats
aggregation (server.js lines 192-204): the bucket key (`_id`, the
category), `$sum: 1`, the conditional `$sum` counting correct answers,
and the running sum and count backing `$avg` over `timeSpent` (which
skips absent values). -/
structure StatAcc where
  category : String
  totalSolved : Nat
  correctCount : Nat
  timeSum : Int
  timeCount : Nat
  deriving DecidableEq

/-- One element of the stats response: `_id` (category), `totalSolved`,
`correctCount`, `avgTime` (`null` when no record of the group has a
`timeSpent`). -/
structure CategoryStat where
  category : String
  totalSolved : Nat
  correctCount : Nat
  avgTime : Option ℚ
  deriving DecidableEq

/-- Fold one document into the accumulators of its bucket. -/
def bumpAcc (a : StatAcc) (s : SolvedQuestionRecord) : StatAcc :=
  ⟨a.category, a.totalSolved + 1,
   a.correctCount + (if s.isCorrect then 1 else 0),
   a.timeSum + s.timeSpent.getD 0,
   a.timeCount + (if s.timeSpent.isSome then 1 else 0)⟩

/-- Open a fresh bucket for the category of a document. -/
def initAcc (s : SolvedQuestionRecord) : StatAcc :=
  ⟨s.category, 1, if s.isCorrect then 1 else 0, s.timeSpent.getD 0,
   if s.timeSpent.isSome then 1 else 0⟩

/-- `$group` step: route one document into the existing bucket of its
category, or open a new bucket. -/
def groupStep (accs : List StatAcc) (s : SolvedQuestionRecord) : List StatAcc :=
  if accs.any (fun a => a.category == s.category) then
    accs.map (fun a => if a.category == s.category then bumpAcc a s else a)
  else
    accs ++ [initAcc s]

/-- Turn the accumulators of a bucket into the response shape: `$avg`
yields null for a bucket whose documents all lack `timeSpent`, else the
arithmetic mean of the present values. -/
def finalizeAcc (a : StatAcc) : CategoryStat :=
  ⟨a.category, a.totalSolved, a.correctCount,
   if a.timeCount = 0 then none else some ((a.timeSum : ℚ) / (a.timeCount : ℚ))⟩

/-- `$match: { userId }` (server.js line 193). -/
def userRecords (db : DB) (userId : String) : List SolvedQuestionRecord :=
  db.solvedQuestions.filter (fun s => s.userId == userId)

/-- GET `/api/stats/:userId` (server.js lines 188-211): match the solved
records of the user, group by category, and shape each bucket. -/
def statsFor (db : DB) (userId : String) : List CategoryStat :=
  ((userRecords db userId).foldl groupStep []).map finalizeAcc

/-- The records of one category among a record list. -/
def catGroup (l : List SolvedQuestionRecord) (c : String) : List SolvedQuestionRecord :=
  l.filter (fun s => s.category == c)

/-- A bucket extended by the contributions of a whole record list. -/
def extendAcc (a : StatAcc) (l : List SolvedQuestionRecord) (c : String) : StatAcc :=
  ⟨a.category, a.totalSolved + (catGroup l c).length,
   a.correctCount + ((catGroup l c).filter (fun s => s.isCorrect)).length,
   a.timeSum + ((catGroup l c).filterMap (fun s => s.timeSpent)).sum,
   a.timeCount + ((catGroup l c).filterMap (fun s => s.timeSpent)).length⟩

/-- An empty bucket for a category. -/
def emptyAcc (c : String) : StatAcc := ⟨c, 0, 0, 0, 0⟩

/-- A store with three solved records for user `u1` (two `math`, with
times 4 and 6, one `science` without a time) plus one of another user;
input for the C5 witness. -/
def statsDB : DB :=
  ⟨[], [],
   [⟨"u1", "q1", "math", true, 0, some 4⟩,
    ⟨"u1", "q2", "math", false, 0, some 6⟩,
    ⟨"u1", "q3", "science", true, 0, none⟩,
    ⟨"u2", "q1", "math", true, 0, some 9⟩],
   0⟩

lemma length_filter_split {α : Type} (l : List α) (p r : α → Bool) :
    (l.filter (fun a => p a && !(r a))).length + (l.filter (fun a => r a && p a)).length
      = (l.filter p).length := by
  induction l with
  | nil => rfl
  | cons a l ih =>
    cases hp : p a <;> cases hr : r a <;> simp [List.filter_cons, hp, hr] <;> omega

lemma unsolved_add_solved (db : DB) (userId category : String) :
    (unsolvedQuestions db userId category).length + solvedInCategory db userId category
      = (catQuestions db category).length := by
  unfold unsolvedQuestions solvedInCategory catQuestions
  rw [List.filter_filter]
  exact length_filter_split db.questions (fun q => q.category == category)
    (fun q => (solvedIdsFor db userId category).contains q.id)

/-- C1 counterexample: with one `math` question (`N = 1`), no solved
questions (`k = 0`) and `limit = 2 ≥ 1`, the endpoint returns 2 questions
(the top-up step re-fetches the question already in the unsolved pool),
not `min(limit, N) = 1` as the claim states.  The identity function is
one of the permutations the random shuffle can produce. -/
theorem selectUnsolved_claim_cex :
    (selectUnsolvedWith (fun l => l) oneQuestionDB ("u1") ("math") 2).length ≠
      min 2 ((catQuestions oneQuestionDB ("math")).length) := by decide

/-- C1 amended: for every store, user, category and limit, and every
shuffle that permutes its input, the unsolved-question selection returns
exactly `min(limit, N + (N - k))` questions, where `N` is the question
count of the category and `k` the number of those questions the user has
solved.  When `limit ≤ N` this equals `min(limit, N) = limit`, but when
`N < limit` the top-up step re-adds questions already in the unsolved
pool, so the length is `min(limit, 2N - k)` rather than `N`. -/
theorem selectUnsolved_result_length (shuffle : List Question → List Question)
    (hperm : ∀ l, (shuffle l).Perm l) (db : DB) (userId category : String) (limit : Nat) :
    (selectUnsolvedWith shuffle db userId category limit).length =
      min limit ((catQuestions db category).length +
        ((catQuestions db category).length - solvedInCategory db userId category)) := by
  have hsum := unsolved_add_solved db userId category
  rw [selectUnsolvedWith, List.length_take, (hperm _).length_eq, finalQuestions]
  by_cases hm : (unsolvedQuestions db userId category).length < limit
  · rw [if_pos hm, List.length_append, List.length_take]
    simp only [Nat.min_def]
    split_ifs <;> omega
  · rw [if_neg hm]
    simp only [Nat.min_def]
    split_ifs <;> omega

/-- Witness for the amended C1 theorem at a concrete permutation (the
identity) and a concrete store. -/
theorem selectUnsolved_result_length_witness :
    (selectUnsolvedWith (fun l => l) oneQuestionDB ("u1") ("math") 2).length =
      min 2 ((catQuestions oneQuestionDB ("math")).length +
        ((catQuestions oneQuestionDB ("math")).length -
          solvedInCategory oneQuestionDB ("u1") ("math"))) :=
  selectUnsolved_result_length (fun l => l) (fun l => List.Perm.refl l)
    oneQuestionDB ("u1") ("math") 2

/-- C2: when `limit ≤ N - k` (the unsolved pool is at least as large as
the request), the top-up step is skipped and every returned question has
an id outside the solved-id set of the user for that category. -/
theorem selectUnsolved_avoids_solved (shuffle : List Question → List Question)
    (hperm : ∀ l, (shuffle l).Perm l) (db : DB) (userId category : String) (limit : Nat)
    (hlim : limit ≤ (catQuestions db category).length - solvedInCategory db userId category) :
    ∀ q ∈ selectUnsolvedWith shuffle db userId category limit,
      q.id ∉ solvedIdsFor db userId category := by
  intro q hq
  have hsum := unsolved_add_solved db userId category
  have hm : ¬ ((unsolvedQuestions db userId category).length < limit) := by omega
  rw [selectUnsolvedWith, finalQuestions, if_neg hm] at hq
  have hq2 : q ∈ shuffle (unsolvedQuestions db userId category) := List.mem_of_mem_take hq
  have hq3 : q ∈ unsolvedQuestions db userId category := ((hperm _).mem_iff).mp hq2
  rw [unsolvedQuestions, List.mem_filter] at hq3
  intro hmem
  have hc := hq3.2
  rw [← List.elem_iff] at hmem
  simp only [Bool.and_eq_true, Bool.not_eq_true'] at hc
  have hc2 := hc.2
  unfold List.contains at hc2
  rw [hmem] at hc2
  cases hc2

/-- Witness for C2: concrete store with `N = 2`, `k = 1`, `limit = 1`. -/
theorem selectUnsolved_avoids_solved_witness :
    1 ≤ (catQuestions twoQuestionDB ("math")).length -
        solvedInCategory twoQuestionDB ("u1") ("math") ∧
    ∀ q ∈ selectUnsolvedWith (fun l => l) twoQuestionDB ("u1") ("math") 1,
      q.id ∉ solvedIdsFor twoQuestionDB ("u1") ("math") :=
  ⟨by decide,
   selectUnsolved_avoids_solved (fun l => l) (fun l => List.Perm.refl l)
     twoQuestionDB ("u1") ("math") 1 (by decide)⟩

lemma saveWrongAnswer_success_state (db : DB) (now : Nat)
    (userId category question correctAnswer userAnswer : String) (correctIndex : Int)
    (hu : userId ≠ "") (hc : category ≠ "") (hq : question ≠ "")
    (ha : correctAnswer ≠ "") (hb : userAnswer ≠ "") :
    saveWrongAnswer db now userId category question correctAnswer userAnswer correctIndex =
      (.ok (toString db.nextId),
       ⟨db.questions,
        (db.wrongAnswers.filter (fun w => !(w.userId == userId && w.question == question))) ++
          [⟨toString db.nextId, userId, category, question, correctAnswer, userAnswer,
            correctIndex, now⟩],
        db.solvedQuestions, db.nextId + 1⟩) := by
  unfold saveWrongAnswer saveWrongAnswerJ requiredFieldsMissing
  simp [JVal.truthy, JVal.isUndefined, castToString, castToNumber, hu, hc, hq, ha, hb]

lemma filter_not_filter_self {α : Type} (l : List α) (p : α → Bool) :
    (l.filter (fun a => !(p a))).filter p = [] := by
  induction l with
  | nil => rfl
  | cons a l ih =>
    rw [List.filter_cons]
    cases hp : p a
    · rw [if_pos (by rfl), List.filter_cons, if_neg (by simp [hp])]
      exact ih
    · rw [if_neg (by simp)]
      exact ih

lemma filter_pair_after_save (l : List WrongAnswerRecord) (u q : String)
    (w : WrongAnswerRecord) (hw : (w.userId == u && w.question == q) = true) :
    ((l.filter (fun x => !(x.userId == u && x.question == q))) ++ [w]).filter
      (fun x => x.userId == u && x.question == q) = [w] := by
  rw [List.filter_append]
  have h1 : (l.filter (fun x => !(x.userId == u && x.question == q))).filter
      (fun x => x.userId == u && x.question == q) = [] :=
    filter_not_filter_self l (fun x => x.userId == u && x.question == q)
  rw [h1, List.filter_cons, if_pos hw]
  rfl

/-- C3: a successful `saveWrongAnswer` deletes every record matching
`(userId, question)` before inserting, so after one successful call the
store holds exactly one record for the pair, and after two sequential
successful calls for the same pair the single surviving record carries
the category, correctAnswer, userAnswer and correctIndex of the second
call. -/
theorem saveWrongAnswer_single_record (db : DB) (now1 now2 : Nat)
    (u q c1 a1 b1 c2 a2 b2 : String) (i1 i2 : Int)
    (hu : u ≠ "") (hq : q ≠ "") (hc1 : c1 ≠ "") (ha1 : a1 ≠ "") (hb1 : b1 ≠ "")
    (hc2 : c2 ≠ "") (ha2 : a2 ≠ "") (hb2 : b2 ≠ "") :
    ((saveWrongAnswer db now1 u c1 q a1 b1 i1).2.wrongAnswers.filter
        (fun w => w.userId == u && w.question == q) =
      [⟨toString db.nextId, u, c1, q, a1, b1, i1, now1⟩]) ∧
    ((saveWrongAnswer (saveWrongAnswer db now1 u c1 q a1 b1 i1).2 now2
        u c2 q a2 b2 i2).2.wrongAnswers.filter
        (fun w => w.userId == u && w.question == q) =
      [⟨toString (db.nextId + 1), u, c2, q, a2, b2, i2, now2⟩]) := by
  rw [saveWrongAnswer_success_state db now1 u c1 q a1 b1 i1 hu hc1 hq ha1 hb1]
  constructor
  · exact filter_pair_after_save db.wrongAnswers u q _ (by simp)
  · rw [saveWrongAnswer_success_state _ now2 u c2 q a2 b2 i2 hu hc2 hq ha2 hb2]
    exact filter_pair_after_save _ u q _ (by simp)

/-- Witness for C3 on a concrete store and concrete field values. -/
theorem saveWrongAnswer_single_record_witness :
    ("u1" : String) ≠ "" ∧
    ((saveWrongAnswer oneQuestionDB 5 ("u1") ("math") ("2+2") ("4") ("3") 2).2.wrongAnswers.filter
        (fun w => w.userId == "u1" && w.question == "2+2") =
      [⟨"0", "u1", "math", "2+2", "4", "3", 2, 5⟩]) ∧
    ((saveWrongAnswer
        (saveWrongAnswer oneQuestionDB 5 ("u1") ("math") ("2+2") ("4") ("3") 2).2 6
        ("u1") ("sci") ("2+2") ("4") ("5") 1).2.wrongAnswers.filter
        (fun w => w.userId == "u1" && w.question == "2+2") =
      [⟨"1", "u1", "sci", "2+2", "4", "5", 1, 6⟩]) :=
  ⟨by decide,
   saveWrongAnswer_single_record oneQuestionDB 5 6 ("u1") ("2+2") ("math") ("4") ("3")
     ("sci") ("4") ("5") 2 1 (by decide) (by decide) (by decide) (by decide) (by decide)
     (by decide) (by decide) (by decide)⟩

lemma findOneAndUpdateSolved_filter_pair (l : List SolvedQuestionRecord)
    (userId questionId category : String) (isCorrect : Bool) (timeSpent : Option Int)
    (now : Nat)
    (h : (l.filter (fun s => s.userId == userId && s.questionId == questionId)).length ≤ 1) :
    (findOneAndUpdateSolved userId questionId category isCorrect timeSpent now l).filter
        (fun s => s.userId == userId && s.questionId == questionId) =
      [⟨userId, questionId, category, isCorrect, now, timeSpent⟩] := by
  induction l with
  | nil =>
    rw [findOneAndUpdateSolved, List.filter_cons, if_pos (by simp)]
    rfl
  | cons s rest ih =>
    rw [findOneAndUpdateSolved]
    by_cases hs : (s.userId == userId && s.questionId == questionId) = true
    · rw [if_pos hs, List.filter_cons, if_pos (by simp)]
      rw [List.filter_cons, if_pos hs, List.length_cons] at h
      have hrest : rest.filter (fun s => s.userId == userId && s.questionId == questionId)
          = [] := List.length_eq_zero.mp (by omega)
      rw [hrest]
    · rw [if_neg hs, List.filter_cons, if_neg hs]
      rw [List.filter_cons, if_neg hs] at h
      exact ih h

lemma findOneAndUpdateSolved_filter_other (l : List SolvedQuestionRecord)
    (userId questionId category : String) (isCorrect : Bool) (timeSpent : Option Int)
    (now : Nat) :
    (findOneAndUpdateSolved userId questionId category isCorrect timeSpent now l).filter
        (fun s => !(s.userId == userId && s.questionId == questionId)) =
      l.filter (fun s => !(s.userId == userId && s.questionId == questionId)) := by
  induction l with
  | nil =>
    rw [findOneAndUpdateSolved, List.filter_cons, if_neg (by simp)]
  | cons s rest ih =>
    rw [findOneAndUpdateSolved]
    by_cases hs : (s.userId == userId && s.questionId == questionId) = true
    · rw [if_pos hs, List.filter_cons, if_neg (by simp), List.filter_cons,
        if_neg (by simp [hs])]
    · rw [if_neg hs, List.filter_cons, List.filter_cons]
      have hns : (!(s.userId == userId && s.questionId == questionId)) = true := by
        simp [hs]
      rw [if_pos hns, if_pos hns, ih]

/-- C4: `recordSolved` is an upsert.  Under the uniqueness invariant of
the collection (at most one record per `(userId, questionId)`, enforced
by the unique index of server.js line 116), one call leaves exactly one
record for the pair, carrying the category, isCorrect, timeSpent and
solvedAt of the call, and leaves every other record untouched; hence
after the second of two sequential calls the single record carries the
fields of the second call. -/
theorem recordSolved_upsert (db : DB) (now1 now2 : Nat) (u qid : String)
    (c1 c2 : String) (b1 b2 : Bool) (t1 t2 : Option Int)
    (h : (db.solvedQuestions.filter
      (fun s => s.userId == u && s.questionId == qid)).length ≤ 1) :
    ((recordSolved db now1 u qid c1 b1 t1).solvedQuestions.filter
        (fun s => s.userId == u && s.questionId == qid) =
      [⟨u, qid, c1, b1, now1, t1⟩]) ∧
    ((recordSolved db now1 u qid c1 b1 t1).solvedQuestions.filter
        (fun s => !(s.userId == u && s.questionId == qid)) =
      db.solvedQuestions.filter (fun s => !(s.userId == u && s.questionId == qid))) ∧
    ((recordSolved (recordSolved db now1 u qid c1 b1 t1) now2 u qid c2 b2 t2).solvedQuestions.filter
        (fun s => s.userId == u && s.questionId == qid) =
      [⟨u, qid, c2, b2, now2, t2⟩]) := by
  have h1 := findOneAndUpdateSolved_filter_pair db.solvedQuestions u qid c1 b1 t1 now1 h
  refine ⟨h1, findOneAndUpdateSolved_filter_other _ u qid c1 b1 t1 now1,
    findOneAndUpdateSolved_filter_pair _ u qid c2 b2 t2 now2 ?_⟩
  show ((findOneAndUpdateSolved u qid c1 b1 t1 now1 db.solvedQuestions).filter
    (fun s => s.userId == u && s.questionId == qid)).length ≤ 1
  rw [h1]
  simp

/-- Witness for C4: the concrete scenario of the spec — `(u, q1, math,
true, 12)` then `(u, q1, math, false, 5)` — on an initially empty solved
collection. -/
theorem recordSolved_upsert_witness :
    ((oneQuestionDB.solvedQuestions.filter
      (fun s => s.userId == "u" && s.questionId == "q1")).length ≤ 1) ∧
    (((recordSolved oneQuestionDB 1 ("u") ("q1") ("math") true (some 12)).solvedQuestions.filter
        (fun s => s.userId == "u" && s.questionId == "q1") =
      [⟨"u", "q1", "math", true, 1, some 12⟩]) ∧
    ((recordSolved oneQuestionDB 1 ("u") ("q1") ("math") true (some 12)).solvedQuestions.filter
        (fun s => !(s.userId == "u" && s.questionId == "q1")) =
      oneQuestionDB.solvedQuestions.filter
        (fun s => !(s.userId == "u" && s.questionId == "q1"))) ∧
    ((recordSolved (recordSolved oneQuestionDB 1 ("u") ("q1") ("math") true (some 12)) 2
        ("u") ("q1") ("math") false (some 5)).solvedQuestions.filter
        (fun s => s.userId == "u" && s.questionId == "q1") =
      [⟨"u", "q1", "math", false, 2, some 5⟩])) :=
  ⟨by decide,
   recordSolved_upsert oneQuestionDB 1 2 ("u") ("q1") ("math") ("math") true false
     (some 12) (some 5) (by decide)⟩

/-- C8: with a reachable store, `recordSolved` succeeds on every input —
the handler has no validation or not-found branch, so no input yields an
error result. -/
theorem recordSolved_always_succeeds (db : DB) (now : Nat)
    (userId questionId category : String) (isCorrect : Bool) (timeSpent : Option Int) :
    (recordSolvedH true db now userId questionId category isCorrect timeSpent).1 =
      RecordSolvedResult.ok ⟨userId, questionId, category, isCorrect, now, timeSpent⟩ :=
  rfl

/-- C6: for every id held by no WrongAnswerRecord, the delete endpoint
answers 404 NotFound — never a server failure — and leaves the store
unchanged.  (Express only invokes the handler with a non-empty path
segment, hence the non-emptiness hypothesis; the falsy check of the
handler itself answers 400 before the lookup otherwise.) -/
theorem deleteWrongAnswer_absent_notFound (db : DB) (wrongAnswerId : String)
    (hne : wrongAnswerId ≠ "")
    (habs : ∀ w ∈ db.wrongAnswers, w.id ≠ wrongAnswerId) :
    deleteWrongAnswer db wrongAnswerId = (DeleteWrongAnswerResult.notFound, db) := by
  unfold deleteWrongAnswer
  rw [if_neg (by simp [hne])]
  have hnone : db.wrongAnswers.find? (fun w => w.id == wrongAnswerId) = none := by
    rw [List.find?_eq_none]
    intro w hw
    simp [habs w hw]
  rw [hnone]

/-- Witness for C6: a store holding one wrong-answer record, queried with
a different id. -/
theorem deleteWrongAnswer_absent_notFound_witness :
    ("zzz" : String) ≠ "" ∧
    deleteWrongAnswer
        ⟨[], [⟨"7", "u1", "math", "2+2", "4", "3", 2, 0⟩], [], 8⟩ ("zzz") =
      (DeleteWrongAnswerResult.notFound,
       ⟨[], [⟨"7", "u1", "math", "2+2", "4", "3", 2, 0⟩], [], 8⟩) :=
  ⟨by decide,
   deleteWrongAnswer_absent_notFound
     ⟨[], [⟨"7", "u1", "math", "2+2", "4", "3", 2, 0⟩], [], 8⟩ ("zzz")
     (by decide) (by decide)⟩

lemma countP_filter_not_self {α : Type} (l : List α) (p : α → Bool) :
    (l.filter (fun a => !(p a))).countP p = 0 := by
  induction l with
  | nil => rfl
  | cons a l ih =>
    cases hp : p a
    · rw [List.filter_cons, if_pos (by rw [hp]; rfl), List.countP_cons, hp]
      simp [ih]
    · rw [List.filter_cons, if_neg (by simp [hp])]
      exact ih

lemma countP_filter_not_keep {α : Type} (l : List α) (p : α → Bool) :
    (l.filter (fun a => !(p a))).countP (fun a => !(p a)) = l.countP (fun a => !(p a)) := by
  induction l with
  | nil => rfl
  | cons a l ih =>
    cases hp : p a
    · rw [List.filter_cons, if_pos (by rw [hp]; rfl), List.countP_cons, List.countP_cons, hp, ih]
    · rw [List.filter_cons, if_neg (by simp [hp]), List.countP_cons, hp, ih]
      simp

/-- C9: `purgeUser` removes every WrongAnswerRecord of the user (none
remains), removes nothing else (the count of records of other users is
unchanged), and leaves the solved-question collection and the question
bank completely untouched. -/
theorem purgeUser_frame (db : DB) (userId : String) :
    (purgeUser db userId).solvedQuestions = db.solvedQuestions ∧
    (purgeUser db userId).questions = db.questions ∧
    (purgeUser db userId).wrongAnswers.countP (fun w => w.userId == userId) = 0 ∧
    (purgeUser db userId).wrongAnswers.countP (fun w => !(w.userId == userId)) =
      db.wrongAnswers.countP (fun w => !(w.userId == userId)) :=
  ⟨rfl, rfl,
   countP_filter_not_self db.wrongAnswers (fun w => w.userId == userId),
   countP_filter_not_keep db.wrongAnswers (fun w => w.userId == userId)⟩

/-- C7: the save handler fails with ValidationError exactly when one of
the six required values is missing per the check in the source — for the
five string fields, when the value is falsy (absent, null, empty string,
0 or false); for `correctIndex`, only when the value is absent
(`=== undefined`), so `correctIndex = 0` is not rejected. -/
theorem saveWrongAnswer_validation_iff (db : DB) (now : Nat) (r : WrongAnswerReq) :
    ((saveWrongAnswerJ db now r).1 = SaveWrongAnswerResult.validationError) ↔
      (r.userId.truthy = false ∨ r.category.truthy = false ∨ r.question.truthy = false ∨
        r.correctAnswer.truthy = false ∨ r.userAnswer.truthy = false ∨
        r.correctIndex.isUndefined = true) := by
  unfold saveWrongAnswerJ
  by_cases hm : requiredFieldsMissing r = true
  · rw [if_pos hm]
    unfold requiredFieldsMissing at hm
    simp only [Bool.or_eq_true, Bool.not_eq_true'] at hm
    exact ⟨fun _ => by tauto, fun _ => rfl⟩
  · rw [if_neg hm]
    unfold requiredFieldsMissing at hm
    simp only [Bool.or_eq_true, Bool.not_eq_true', not_or] at hm
    constructor
    · intro hres
      exfalso
      revert hres
      split
      · split
        · intro hres; cases hres
        · intro hres; cases hres
      · intro hres; cases hres
    · intro hdisj
      exfalso
      rcases hdisj with h | h | h | h | h | h <;> simp [h] at hm

/-- C10: an empty string in any of the five string fields is falsy, so
even though it is a present value the save handler rejects the request
with ValidationError before the delete step, leaving the store unchanged;
only `correctIndex` escapes the falsiness check — with `correctIndex = 0`
and the five string fields truthy, validation does not reject. -/
theorem saveWrongAnswer_empty_string_rejected (db : DB) (now : Nat)
    (r r2 : WrongAnswerReq)
    (h : r.userId = JVal.str "" ∨ r.category = JVal.str "" ∨ r.question = JVal.str "" ∨
      r.correctAnswer = JVal.str "" ∨ r.userAnswer = JVal.str "")
    (h0 : r2.correctIndex = JVal.num 0)
    (hu : r2.userId.truthy = true) (hc : r2.category.truthy = true)
    (hq : r2.question.truthy = true) (ha : r2.correctAnswer.truthy = true)
    (hb : r2.userAnswer.truthy = true) :
    saveWrongAnswerJ db now r = (SaveWrongAnswerResult.validationError, db) ∧
    (saveWrongAnswerJ db now r2).1 ≠ SaveWrongAnswerResult.validationError := by
  constructor
  · have hm : requiredFieldsMissing r = true := by
      unfold requiredFieldsMissing
      rcases h with h | h | h | h | h <;> simp [h, JVal.truthy]
    unfold saveWrongAnswerJ
    rw [if_pos hm]
  · have hm : ¬ (requiredFieldsMissing r2 = true) := by
      unfold requiredFieldsMissing
      simp [hu, hc, hq, ha, hb, h0, JVal.isUndefined]
    unfold saveWrongAnswerJ
    rw [if_neg hm]
    intro hres
    revert hres
    split
    · split
      · intro hres; cases hres
      · intro hres; cases hres
    · intro hres; cases hres

/-- Witness for C10: a request whose `category` is the empty string is
rejected with the store untouched, while a request with `correctIndex =
0` and non-empty strings elsewhere passes validation. -/
theorem saveWrongAnswer_empty_string_rejected_witness :
    (saveWrongAnswerJ oneQuestionDB 3
        ⟨JVal.str "u1", JVal.str "", JVal.str "2+2", JVal.str "4", JVal.str "3",
         JVal.num 2⟩ =
      (SaveWrongAnswerResult.validationError, oneQuestionDB)) ∧
    (saveWrongAnswerJ oneQuestionDB 3
        ⟨JVal.str "u1", JVal.str "math", JVal.str "2+2", JVal.str "4", JVal.str "3",
         JVal.num 0⟩).1 ≠ SaveWrongAnswerResult.validationError :=
  saveWrongAnswer_empty_string_rejected oneQuestionDB 3
    ⟨JVal.str "u1", JVal.str "", JVal.str "2+2", JVal.str "4", JVal.str "3", JVal.num 2⟩
    ⟨JVal.str "u1", JVal.str "math", JVal.str "2+2", JVal.str "4", JVal.str "3", JVal.num 0⟩
    (by decide) (by decide) (by decide) (by decide) (by decide) (by decide) (by decide)

lemma extendAcc_nil (a : StatAcc) (c : String) : extendAcc a [] c = a := by
  obtain ⟨c0, t0, cc0, ts0, tc0⟩ := a
  simp [extendAcc, catGroup]

lemma extendAcc_bump (a : StatAcc) (s : SolvedQuestionRecord)
    (t : List SolvedQuestionRecord) (c : String) (h : (s.category == c) = true) :
    extendAcc (bumpAcc a s) t c = extendAcc a (s :: t) c := by
  unfold extendAcc bumpAcc catGroup
  rw [List.filter_cons, if_pos h]
  cases hts : s.timeSpent <;> cases hic : s.isCorrect <;>
    simp [List.filter_cons, hic, hts] <;> omega

lemma extendAcc_init (s : SolvedQuestionRecord) (t : List SolvedQuestionRecord)
    (c : String) (h : (s.category == c) = true) :
    extendAcc (initAcc s) t c = extendAcc (emptyAcc c) (s :: t) c := by
  have hceq : s.category = c := by simpa using h
  unfold extendAcc initAcc emptyAcc catGroup
  rw [List.filter_cons, if_pos h]
  cases hts : s.timeSpent <;> cases hic : s.isCorrect <;>
    simp [List.filter_cons, hic, hts, hceq] <;> omega

lemma extendAcc_skip (a : StatAcc) (s : SolvedQuestionRecord)
    (t : List SolvedQuestionRecord) (c : String) (h : ¬ ((s.category == c) = true)) :
    extendAcc a (s :: t) c = extendAcc a t c := by
  unfold extendAcc catGroup
  rw [List.filter_cons, if_neg h]

lemma find?_cons_pos {α : Type} (p : α → Bool) (b : α) (t : List α) (h : p b = true) :
    (b :: t).find? p = some b := List.find?_cons_of_pos t h

lemma find?_cons_neg {α : Type} (p : α → Bool) (b : α) (t : List α) (h : ¬ (p b = true)) :
    (b :: t).find? p = t.find? p := List.find?_cons_of_neg t h

lemma find?_map_bump (accs : List StatAcc) (s : SolvedQuestionRecord) (c : String) :
    (accs.map (fun a => if a.category == s.category then bumpAcc a s else a)).find?
        (fun a => a.category == c) =
      (accs.find? (fun a => a.category == c)).map
        (fun a => if a.category == s.category then bumpAcc a s else a) := by
  induction accs with
  | nil => rfl
  | cons b tl ih =>
    have hcat : (if b.category == s.category then bumpAcc b s else b).category
        = b.category := by
      by_cases hb : b.category = s.category <;> simp [hb, bumpAcc]
    by_cases hb : ((b.category == c) = true)
    · rw [List.map_cons,
        find?_cons_pos (fun a : StatAcc => a.category == c) _ _ (by simp only [hcat]; exact hb),
        find?_cons_pos (fun a : StatAcc => a.category == c) b tl hb]
      rfl
    · rw [List.map_cons,
        find?_cons_neg (fun a : StatAcc => a.category == c) _ _ (by simp only [hcat]; exact hb),
        find?_cons_neg (fun a : StatAcc => a.category == c) b tl hb]
      exact ih

lemma find?_groupStep (accs : List StatAcc) (s : SolvedQuestionRecord) (c : String) :
    (groupStep accs s).find? (fun a => a.category == c) =
      if s.category == c then
        match accs.find? (fun a => a.category == c) with
        | some a => some (bumpAcc a s)
        | none => some (initAcc s)
      else accs.find? (fun a => a.category == c) := by
  unfold groupStep
  by_cases hany : accs.any (fun a => a.category == s.category) = true
  · rw [if_pos hany, find?_map_bump]
    by_cases hc : (s.category == c) = true
    · rw [if_pos hc]
      have hceq : s.category = c := by simpa using hc
      cases hfa : accs.find? (fun a => a.category == c) with
      | none =>
        exfalso
        obtain ⟨a, ha, hacat⟩ := List.any_eq_true.mp hany
        have h1 : a.category = s.category := by simpa using hacat
        have h2 : (a.category == c) = true := by simp [h1, hceq]
        exact (List.find?_eq_none.mp hfa a ha) h2
      | some a =>
        have hpa := List.find?_some hfa
        have h1 : a.category = c := by simpa using hpa
        have heq2 : a.category = s.category := by rw [h1, hceq]
        simp [heq2]
    · rw [if_neg hc]
      cases hfa : accs.find? (fun a => a.category == c) with
      | none => rfl
      | some a =>
        have hpa := List.find?_some hfa
        have h1 : a.category = c := by simpa using hpa
        have hne2 : ¬ (a.category = s.category) := by
          intro heq
          apply hc
          have h3 : s.category = c := by rw [← heq]; exact h1
          simp [h3]
        simp [hne2]
  · rw [if_neg hany, List.find?_append]
    by_cases hc : (s.category == c) = true
    · rw [if_pos hc]
      have hnone : accs.find? (fun a => a.category == c) = none := by
        rw [List.find?_eq_none]
        intro a ha hpa
        apply hany
        refine List.any_eq_true.mpr ⟨a, ha, ?_⟩
        have h1 : a.category = c := by simpa using hpa
        have h2 : s.category = c := by simpa using hc
        simp [h1, h2]
      rw [hnone]
      rw [find?_cons_pos (fun a => a.category == c) (initAcc s) [] (by exact hc)]
      rfl
    · rw [if_neg hc]
      have hnil : ([initAcc s].find? (fun a => a.category == c)) = none := by
        rw [find?_cons_neg (fun a => a.category == c) (initAcc s) [] (by exact hc)]
        rfl
      rw [hnil]
      cases accs.find? (fun a => a.category == c) <;> rfl

lemma find?_foldl_groupStep (l : List SolvedQuestionRecord) (accs : List StatAcc)
    (c : String) :
    (l.foldl groupStep accs).find? (fun a => a.category == c) =
      match accs.find? (fun a => a.category == c) with
      | some a => some (extendAcc a l c)
      | none =>
        if (catGroup l c).length = 0 then none
        else some (extendAcc (emptyAcc c) l c) := by
  induction l generalizing accs with
  | nil =>
    rw [List.foldl_nil]
    cases hfa : accs.find? (fun a => a.category == c) with
    | none => simp [catGroup]
    | some a =>
      dsimp only
      rw [extendAcc_nil a c]
  | cons s t ih =>
    rw [List.foldl_cons, ih (groupStep accs s), find?_groupStep]
    by_cases hc : (s.category == c) = true
    · rw [if_pos hc]
      cases hfa : accs.find? (fun a => a.category == c) with
      | some a =>
        dsimp only
        rw [extendAcc_bump a s t c hc]
      | none =>
        dsimp only
        rw [extendAcc_init s t c hc]
        have hlen : ¬ ((catGroup (s :: t) c).length = 0) := by
          unfold catGroup
          rw [List.filter_cons, if_pos hc]
          simp
        rw [if_neg hlen]
    · rw [if_neg hc]
      have hg : catGroup (s :: t) c = catGroup t c := by
        unfold catGroup
        rw [List.filter_cons, if_neg hc]
      cases hfa : accs.find? (fun a => a.category == c) with
      | some a =>
        dsimp only
        rw [extendAcc_skip a s t c hc]
      | none =>
        dsimp only
        rw [hg, extendAcc_skip (emptyAcc c) s t c hc]

lemma nodup_groupStep (accs : List StatAcc) (s : SolvedQuestionRecord)
    (h : (accs.map (fun a => a.category)).Nodup) :
    ((groupStep accs s).map (fun a => a.category)).Nodup := by
  unfold groupStep
  by_cases hany : accs.any (fun a => a.category == s.category) = true
  · rw [if_pos hany, List.map_map]
    have hcomp : ((fun a : StatAcc => a.category) ∘
        (fun a => if a.category == s.category then bumpAcc a s else a)) =
        (fun a : StatAcc => a.category) := by
      funext a
      by_cases hb : a.category = s.category <;> simp [hb, bumpAcc]
    rw [hcomp]
    exact h
  · rw [if_neg hany, List.map_append]
    rw [List.nodup_append]
    refine ⟨h, List.nodup_singleton _, ?_⟩
    intro x hx hx2
    obtain ⟨a, ha, hacat⟩ := List.mem_map.mp hx
    have hxs : x = (initAcc s).category := List.mem_singleton.mp hx2
    apply hany
    refine List.any_eq_true.mpr ⟨a, ha, ?_⟩
    have : a.category = s.category := by rw [hacat, hxs]; rfl
    simp [this]

lemma nodup_foldl_groupStep (l : List SolvedQuestionRecord) (accs : List StatAcc)
    (h : (accs.map (fun a => a.category)).Nodup) :
    (((l.foldl groupStep accs)).map (fun a => a.category)).Nodup := by
  induction l generalizing accs with
  | nil => exact h
  | cons s t ih => exact ih (groupStep accs s) (nodup_groupStep accs s h)

lemma find?_cat_of_mem (accs : List StatAcc) (a : StatAcc)
    (h : (accs.map (fun x => x.category)).Nodup) (ha : a ∈ accs) :
    accs.find? (fun x => x.category == a.category) = some a := by
  induction accs with
  | nil => cases ha
  | cons b t ih =>
    rcases List.mem_cons.mp ha with rfl | ha2
    · exact List.find?_cons_of_pos _ (by simp)
    · rw [List.map_cons, List.nodup_cons] at h
      have hb : ¬ ((b.category == a.category) = true) := by
        intro hbc
        apply h.1
        have h2 : b.category = a.category := by simpa using hbc
        rw [h2]
        exact List.mem_map_of_mem _ ha2
      rw [find?_cons_neg (fun x : StatAcc => x.category == a.category) b t hb]
      exact ih h.2 ha2

/-- C5: every element of the stats response for a user describes one
category group of the solved records of that user: `totalSolved` is the
group size, `correctCount` the number of records with `isCorrect`, and
`avgTime` the arithmetic mean of the `timeSpent` values that are present
(absent values skipped; null when none is present); and no category
appears twice in the response. -/
theorem statsFor_spec (db : DB) (userId : String) (st : CategoryStat)
    (hst : st ∈ statsFor db userId) :
    ((statsFor db userId).map (fun t => t.category)).Nodup ∧
    st.totalSolved = (catGroup (userRecords db userId) st.category).length ∧
    st.correctCount =
      ((catGroup (userRecords db userId) st.category).filter
        (fun s => s.isCorrect)).length ∧
    st.avgTime =
      (if ((catGroup (userRecords db userId) st.category).filterMap
          (fun s => s.timeSpent)).length = 0 then none
       else some
        (((((catGroup (userRecords db userId) st.category).filterMap
            (fun s => s.timeSpent)).sum : Int) : ℚ) /
          (((catGroup (userRecords db userId) st.category).filterMap
            (fun s => s.timeSpent)).length : ℚ))) := by
  have hnodupacc : (((userRecords db userId).foldl groupStep []).map
      (fun a => a.category)).Nodup :=
    nodup_foldl_groupStep (userRecords db userId) [] (by simp)
  have hnodup : ((statsFor db userId).map (fun t => t.category)).Nodup := by
    unfold statsFor
    rw [List.map_map]
    exact hnodupacc
  refine ⟨hnodup, ?_⟩
  unfold statsFor at hst
  obtain ⟨a, ha, hfa⟩ := List.mem_map.mp hst
  have hfind := find?_cat_of_mem _ a hnodupacc ha
  rw [find?_foldl_groupStep] at hfind
  simp only [List.find?_nil] at hfind
  by_cases hz : (catGroup (userRecords db userId) a.category).length = 0
  · rw [if_pos hz] at hfind
    cases hfind
  · rw [if_neg hz] at hfind
    have hcomp := Option.some.inj hfind
    have hcat : st.category = a.category := by
      rw [← hfa]
      rfl
    rw [hcat]
    refine ⟨?_, ?_, ?_⟩
    · rw [← hfa]
      show a.totalSolved = _
      rw [← hcomp]
      simp [extendAcc, emptyAcc]
    · rw [← hfa]
      show a.correctCount = _
      rw [← hcomp]
      simp [extendAcc, emptyAcc]
    · rw [← hfa]
      show (if a.timeCount = 0 then none else some ((a.timeSum : ℚ) / (a.timeCount : ℚ))) = _
      rw [← hcomp]
      dsimp only [extendAcc, emptyAcc]
      rw [Nat.zero_add, Int.zero_add]

/-- Witness for C5: the `science` group of `u1` has one correct record
and no `timeSpent` value, hence a null average. -/
theorem statsFor_spec_witness :
    (⟨"science", 1, 1, none⟩ : CategoryStat) ∈ statsFor statsDB ("u1") ∧
    (((statsFor statsDB ("u1")).map (fun t => t.category)).Nodup ∧
    (1 : Nat) = (catGroup (userRecords statsDB ("u1")) ("science")).length ∧
    (1 : Nat) =
      ((catGroup (userRecords statsDB ("u1")) ("science")).filter
        (fun s => s.isCorrect)).length ∧
    (none : Option ℚ) =
      (if ((catGroup (userRecords statsDB ("u1")) ("science")).filterMap
          (fun s => s.timeSpent)).length = 0 then none
       else some
        (((((catGroup (userRecords statsDB ("u1")) ("science")).filterMap
            (fun s => s.timeSpent)).sum : Int) : ℚ) /
          (((catGroup (userRecords statsDB ("u1")) ("science")).filterMap
            (fun s => s.timeSpent)).length : ℚ)))) :=
  ⟨by decide, statsFor_spec statsDB ("u1") ⟨"science", 1, 1, none⟩ (by decide)⟩

end QuizBack
